import Mathlib

/-!
# Laosfactos contract-lifecycle engine, shallow embedding

A shallow embedding of the contract/streak domain model of the
laosfactos repository: the client-side lifecycle handlers
(`handleCheckIn`, `handleViolation`, `handleCompleteContract`,
`handleCreateContract` and the `ContractCard` gating logic from the
main application component) and the scheduled settlement jobs
(`weeklyRollover`, `dailyAutoKeep`) and temptation endpoints
(`coachTemptation`, `markTemptationOutcome`) from `functions/index.js`.

Conventions of the embedding:
* Firestore document ids are `Nat`.
* Calendar dates (`YYYY-MM-DD` strings in the code, compared and
  tested for equality as strings) are day indices (`Nat`); string
  comparison of ISO dates agrees with numeric comparison of indices.
* Instants (`new Date()`, server timestamps) are integer milliseconds.
* A per-user Firestore subtree is a `UserState` of association lists;
  an atomic batch write is one pure state-to-state function.
* JavaScript `||` defaulting on numbers and strings is made explicit
  (`jsOrNat`, `jsOrStr`): `0`, `""` and absent are all falsy.
* Absent optional document fields are `Option.none`.
-/

namespace Laosfactos

/-- Log status written by check-in / violation / auto-keep: the
`status` field of a daily log document. -/
inductive LogStatus
  | kept
  | broken
  | exception
deriving DecidableEq, Repr

/-- Contract type: `'DO' | 'AVOID'`. -/
inductive CType
  | do_
  | avoid
deriving DecidableEq, Repr

/-- Contract status: `'active' | 'paused' | 'archived'`. -/
inductive CStatus
  | active
  | paused
  | archived
deriving DecidableEq, Repr

/-- Contract outcome, present only on archived contracts:
`'completed' | 'breached'`. -/
inductive Outcome
  | completed
  | breached
deriving DecidableEq, Repr

/-- Violation decision: `'recommit' | 'pause' | 'retire'`. -/
inductive Decision
  | recommit
  | pause
  | retire
deriving DecidableEq, Repr

/-- The `weeklyProgress` map stored on weekly-frequency contracts. -/
structure WeeklyProgress where
  weekStart : Option Nat
  completedCount : Nat
  lastCheckInDate : Option Nat
deriving DecidableEq, Repr

/-- A contract document (`users/{uid}/contracts/{id}`).  Numeric
fields read through `x || 0` in the code are plain `Nat` (absent and
`0` are indistinguishable there); genuinely optional fields are
`Option`. -/
structure Contract where
  title : String
  behavior : String
  pillar : String
  ctype : CType
  status : CStatus
  streak : Nat
  autoKeep : Bool
  /-- whether `frequency.type == 'weekly'` (the weekly-rollover query key). -/
  frequencyWeekly : Bool
  /-- `frequency?.timesPerWeek`. -/
  timesPerWeek : Option Nat
  weeklyProgress : Option WeeklyProgress
  outcome : Option Outcome
  failureReason : Option String
  startDate : Option Nat
  endDate : Option Nat
  lastCheckIn : Option Int
  archivedAt : Option Int
  resistedCount : Nat
  lastTemptation : Option Int
deriving DecidableEq, Repr

/-- A daily log document (`users/{uid}/logs/{id}`).  `handleCheckIn`
writes `notes` and no `source`; the auto-keep job writes
`source: 'auto'` and no `notes`. -/
structure DailyLog where
  contractId : Nat
  date : Nat
  status : LogStatus
  notes : Option String
  source : Option String
  timestamp : Int
deriving DecidableEq, Repr

/-- A violation record (`users/{uid}/violations/{id}`). -/
structure ViolationRecord where
  contractId : Nat
  contractTitle : String
  reason : String
  story : String
  decision : Decision
  timestamp : Int
deriving DecidableEq, Repr

/-- A journal entry (`users/{uid}/contracts/{cid}/journal/{id}`),
tagged with its owning contract. -/
structure JournalEntry where
  contractId : Nat
  text : String
  jtype : String
  createdAt : Int
deriving DecidableEq, Repr

/-- A temptation record
(`users/{uid}/contracts/{cid}/temptations/{id}`), tagged with its
owning contract and its own document id. -/
structure Temptation where
  contractId : Nat
  tid : Nat
  context : Option String
  aiResponse : String
  outcome : String
  createdAt : Int
  resolvedAt : Option Int
deriving DecidableEq, Repr

/-- One user's Firestore subtree: the documents the lifecycle engine
reads and writes. -/
structure UserState where
  contracts : List (Nat × Contract)
  logs : List DailyLog
  violations : List ViolationRecord
  journal : List JournalEntry
  temptations : List Temptation
deriving DecidableEq, Repr

/-- JavaScript `x || d` on an optional number: absent and `0` are
falsy. -/
def jsOrNat : Option Nat → Nat → Nat
  | none, d => d
  | some 0, d => d
  | some (n + 1), _ => n + 1

/-- JavaScript `x || d` on a string: the empty string is falsy. -/
def jsOrStr (a b : String) : String :=
  if a = "" then b else a

/-- Look a contract up by document id. -/
def lookupContract (s : UserState) (cid : Nat) : Option Contract :=
  (s.contracts.find? fun p => p.1 == cid).map Prod.snd

/-- Apply a field update to the contract document with the given id
(the effect of `batch.update(contractRef, ...)`). -/
def updateContract (s : UserState) (cid : Nat) (f : Contract → Contract) :
    UserState :=
  { s with contracts := s.contracts.map fun p =>
      if p.1 == cid then (p.1, f p.2) else p }

/-- Whether any daily log exists for the given contract and date
(`snapshot` of the query `where('date', '==', d)` keyed by
`contractId`). -/
def hasLogFor (s : UserState) (cid : Nat) (d : Nat) : Bool :=
  s.logs.any fun l => l.date == d && l.contractId == cid

/-! ## Client lifecycle handlers (main application component) -/

/-- `handleCreateContract`: a new contract starts `active` with
`streak = 0` and no archival data. -/
def createContract (s : UserState) (id : Nat) (c : Contract) : UserState :=
  { s with contracts :=
      (id, { c with status := CStatus.active, streak := 0,
                    outcome := none, failureReason := none,
                    lastCheckIn := none, archivedAt := none }) :: s.contracts }

/-- `handleCheckIn(contractId, status, notes)`: if the contract is
found, one batch writes a daily log for today and the streak /
last-check-in update; there is no test for an already-existing log. -/
def checkIn (s : UserState) (cid : Nat) (st : LogStatus) (notes : String)
    (today : Nat) (now : Int) : UserState :=
  match lookupContract s cid with
  | none => s
  | some c =>
      let newStreak := if st = LogStatus.kept then c.streak + 1 else c.streak
      let s1 := { s with logs :=
        { contractId := cid, date := today, status := st,
          notes := some notes, source := none, timestamp := now } :: s.logs }
      updateContract s1 cid fun c0 =>
        { c0 with streak := newStreak, lastCheckIn := some now }

/-- The data the violation flow submits: a root-cause reason chosen
from a fixed list, a free-text story, and a decision. -/
structure ViolationData where
  reason : String
  story : String
  decision : Decision
deriving DecidableEq, Repr

/-- The contract field update `handleViolation` issues: streak reset
and last-check-in refresh always, plus the decision branch. -/
def violationUpdate (vd : ViolationData) (now : Int) (c : Contract) :
    Contract :=
  let c1 := { c with streak := 0, lastCheckIn := some now }
  match vd.decision with
  | Decision.recommit => c1
  | Decision.pause => { c1 with status := CStatus.paused }
  | Decision.retire =>
      { c1 with status := CStatus.archived,
                outcome := some Outcome.breached,
                failureReason := some (jsOrStr vd.story vd.reason),
                archivedAt := some now }

/-- `handleViolation`: one batch appends a violation record, appends
today's `broken` daily log with the story as notes, and applies
`violationUpdate` to the contract. -/
def reportViolation (s : UserState) (cid : Nat) (vd : ViolationData)
    (today : Nat) (now : Int) : UserState :=
  match lookupContract s cid with
  | none => s
  | some c =>
      let s1 := { s with
        violations :=
          { contractId := cid, contractTitle := c.title, reason := vd.reason,
            story := vd.story, decision := vd.decision,
            timestamp := now } :: s.violations,
        logs :=
          { contractId := cid, date := today, status := LogStatus.broken,
            notes := some vd.story, source := none,
            timestamp := now } :: s.logs }
      updateContract s1 cid (violationUpdate vd now)

/-- `handleCompleteContract`: unconditionally archives the contract
with outcome `completed` and an archival timestamp. -/
def completeContract (s : UserState) (cid : Nat) (now : Int) : UserState :=
  updateContract s cid fun c =>
    { c with status := CStatus.archived,
             outcome := some Outcome.completed, archivedAt := some now }

/-! ## Card-level date arithmetic and action gating (`ContractCard`) -/

/-- Milliseconds per day, as in `1000 * 60 * 60 * 24`. -/
def msPerDay : Int := 86400000

/-- `Math.ceil` of an exact integer quotient. -/
def ceilDiv (a b : Int) : Int := -((-a) / b)

/-- `getDaysRemaining(endDateStr)`: `new Date(endDateStr)` is midnight
UTC of that day, so the difference to `now` is `d * msPerDay - now`. -/
def getDaysRemaining (endDate : Option Nat) (now : Int) : Option Int :=
  endDate.map fun d => ceilDiv ((d : Int) * msPerDay - now) msPerDay

/-- Today's calendar date as a day index:
`new Date().toISOString().split('T')[0]`. -/
def todayDate (now : Int) : Nat := (now / msPerDay).toNat

/-- `isExpired = daysLeft !== null && daysLeft < 0`. -/
def isExpiredCard (endDate : Option Nat) (now : Int) : Bool :=
  match getDaysRemaining endDate now with
  | none => false
  | some k => k < 0

/-- `isFuture = contract.startDate && contract.startDate > todayStr`. -/
def isFutureCard (startDate : Option Nat) (now : Int) : Bool :=
  match startDate with
  | none => false
  | some sd => todayDate now < sd

/-- Whether the card offers the check-in actions (Kept / Broke it /
Mark as Exception): only when the contract has no log for today, has
started, and has not expired. -/
def checkInOffered (s : UserState) (cid : Nat) (c : Contract) (now : Int) :
    Bool :=
  !hasLogFor s cid (todayDate now) &&
    !isFutureCard c.startDate now && !isExpiredCard c.endDate now

/-- Whether the card offers the Claim Victory action: only when the
contract has started and `isExpired` holds. -/
def claimVictoryOffered (c : Contract) (now : Int) : Bool :=
  !isFutureCard c.startDate now && isExpiredCard c.endDate now

/-! ## Scheduled settlement (`functions/index.js`) -/

/-- The goal the weekly rollover evaluates:
`contract.frequency?.timesPerWeek || 3`. -/
def rolloverGoal (c : Contract) : Nat := jsOrNat c.timesPerWeek 3

/-- The progress the weekly rollover evaluates:
`contract.weeklyProgress?.completedCount || 0`. -/
def rolloverCompleted (c : Contract) : Nat :=
  jsOrNat (c.weeklyProgress.map WeeklyProgress.completedCount) 0

/-- Per-contract transition of `weeklyRollover`: streak increments on
a met goal and resets to `0` otherwise; `weeklyProgress` is reset to a
fresh window unconditionally. -/
def rolloverContract (c : Contract) (today : Nat) : Contract :=
  let metGoal := rolloverGoal c ≤ rolloverCompleted c
  { c with
      streak := if metGoal then c.streak + 1 else 0,
      weeklyProgress := some
        { weekStart := some today, completedCount := 0,
          lastCheckInDate := none } }

/-- The weekly-rollover query key: `status == 'active'` and
`frequency.type == 'weekly'`. -/
def isWeeklyActive (c : Contract) : Bool :=
  decide (c.status = CStatus.active) && c.frequencyWeekly

/-- One run of the `weeklyRollover` job over one user's subtree: every
active weekly contract goes through `rolloverContract`, in one batch. -/
def weeklyRolloverRun (s : UserState) (today : Nat) : UserState :=
  { s with contracts := s.contracts.map fun p =>
      if isWeeklyActive p.2 then (p.1, rolloverContract p.2 today) else p }

/-- The auto-keep query key: `status == 'active'`, `type == 'AVOID'`,
`autoKeep == true`. -/
def autoKeepEligible (c : Contract) : Bool :=
  decide (c.status = CStatus.active) && decide (c.ctype = CType.avoid) &&
    c.autoKeep

/-- The contracts the `dailyAutoKeep` job acts on: eligible contracts
with no daily log for yesterday, judged against the log snapshot taken
at the start of the run. -/
def autoKeepTargets (s : UserState) (yesterday : Nat) :
    List (Nat × Contract) :=
  s.contracts.filter fun p =>
    autoKeepEligible p.2 && !hasLogFor s p.1 yesterday

/-- The synthesized daily log of the auto-keep job. -/
def autoLog (cid : Nat) (yesterday : Nat) (now : Int) : DailyLog :=
  { contractId := cid, date := yesterday, status := LogStatus.kept,
    notes := none, source := some "auto", timestamp := now }

/-- The journal entry the auto-keep job appends. -/
def autoJournalEntry (cid : Nat) (now : Int) : JournalEntry :=
  { contractId := cid, text := "Auto-completed (No violation reported)",
    jtype := "auto", createdAt := now }

/-- The contract update the auto-keep job issues for a target contract
(streak increment and last-check-in refresh), identity elsewhere.  The
"already logged" test reads the pre-run state `s`. -/
def autoKeepUpdate (s : UserState) (yesterday : Nat) (now : Int)
    (p : Nat × Contract) : Nat × Contract :=
  if autoKeepEligible p.2 && !hasLogFor s p.1 yesterday then
    (p.1, { p.2 with streak := p.2.streak + 1, lastCheckIn := some now })
  else p

/-- One run of the `dailyAutoKeep` job over one user's subtree: for
every target contract, one batch writes a `kept` log for yesterday
with `source: 'auto'`, a streak increment, and an auto journal
entry.  The "already logged" set is computed once from the pre-run
logs. -/
def dailyAutoKeepRun (s : UserState) (yesterday : Nat) (now : Int) :
    UserState :=
  { s with
      contracts := s.contracts.map (autoKeepUpdate s yesterday now),
      logs := ((autoKeepTargets s yesterday).map fun p =>
        autoLog p.1 yesterday now) ++ s.logs,
      journal := ((autoKeepTargets s yesterday).map fun p =>
        autoJournalEntry p.1 now) ++ s.journal }

/-! ## Temptation endpoints (`functions/index.js`) -/

/-- Look a temptation up by contract id and document id. -/
def findTemptation (s : UserState) (cid tid : Nat) : Option Temptation :=
  s.temptations.find? fun t => t.contractId == cid && t.tid == tid

/-- `coachTemptation`: requires the contract to exist, persists a new
temptation record with `outcome: 'pending'`, and stamps
`lastTemptation` on the contract. -/
def coachTemptation (s : UserState) (cid tid : Nat)
    (context : Option String) (aiText : String) (now : Int) :
    Option UserState :=
  match lookupContract s cid with
  | none => none
  | some _ =>
      let s1 := { s with temptations :=
        { contractId := cid, tid := tid, context := context,
          aiResponse := aiText, outcome := "pending", createdAt := now,
          resolvedAt := none } :: s.temptations }
      some (updateContract s1 cid fun c =>
        { c with lastTemptation := some now })

/-- `markTemptationOutcome`: validates the outcome value, updates the
temptation document (failing if it does not exist), and increments the
contract's `resistedCount` when the outcome is `resisted`.  There is
no check of the record's current outcome. -/
def markTemptationOutcome (s : UserState) (cid tid : Nat)
    (outcome : String) (now : Int) : Except String UserState :=
  if outcome = "resisted" ∨ outcome = "relapsed" then
    match findTemptation s cid tid with
    | none => Except.error "internal"
    | some _ =>
        let s1 := { s with temptations := s.temptations.map fun t =>
          if t.contractId == cid && t.tid == tid then
            { t with outcome := outcome, resolvedAt := some now }
          else t }
        Except.ok (if outcome = "resisted" then
          updateContract s1 cid fun c =>
            { c with resistedCount := c.resistedCount + 1 }
        else s1)
  else Except.error "invalid-argument"

/-! ## Association-list facts -/

theorem find?_key_map {α : Type} (g : Nat × α → Nat × α)
    (hg : ∀ p, (g p).1 = p.1) (l : List (Nat × α)) (k : Nat) :
    (l.map g).find? (fun p => p.1 == k) =
      (l.find? fun p => p.1 == k).map g := by
  induction l with
  | nil => rfl
  | cons q t ih =>
      simp only [List.map_cons, List.find?, hg q]
      cases h : (q.1 == k) <;> simp [h, ih]

theorem find?_key_of_nodup {α : Type} {l : List (Nat × α)} {k : Nat} {c : α}
    (hnd : (l.map Prod.fst).Nodup) (hmem : (k, c) ∈ l) :
    l.find? (fun p => p.1 == k) = some (k, c) := by
  induction l with
  | nil => cases hmem
  | cons q t ih =>
      simp only [List.map_cons, List.nodup_cons] at hnd
      rcases List.mem_cons.mp hmem with rfl | hmem'
      · exact List.find?_cons_of_pos _ (by simp)
      · have hq : ¬(q.1 = k) := by
          intro hq
          exact hnd.1 (hq ▸ List.mem_map_of_mem Prod.fst hmem')
        rw [List.find?_cons_of_neg _ (by simpa using hq)]
        exact ih hnd.2 hmem'

theorem filter_key_of_nodup {α : Type} {l : List (Nat × α)} {k : Nat} {c : α}
    (hnd : (l.map Prod.fst).Nodup) (hmem : (k, c) ∈ l) :
    l.filter (fun p => p.1 == k) = [(k, c)] := by
  induction l with
  | nil => cases hmem
  | cons q t ih =>
      simp only [List.map_cons, List.nodup_cons] at hnd
      rcases List.mem_cons.mp hmem with rfl | hmem'
      · rw [List.filter_cons_of_pos (by simp)]
        have : t.filter (fun p => p.1 == k) = [] := by
          refine List.filter_eq_nil_iff.mpr fun p hp h => ?_
          have hpk : p.1 = k := by simpa using h
          have hm : k ∈ t.map Prod.fst := by
            rw [← hpk]
            exact List.mem_map_of_mem Prod.fst hp
          exact hnd.1 hm
        rw [this]
      · have hq : ¬(q.1 = k) := by
          intro hq
          exact hnd.1 (hq ▸ List.mem_map_of_mem Prod.fst hmem')
        rw [List.filter_cons_of_neg (by simpa using hq)]
        exact ih hnd.2 hmem'

theorem map_fst_keyed {α : Type} (g : Nat × α → Nat × α)
    (hg : ∀ p, (g p).1 = p.1) (l : List (Nat × α)) :
    (l.map g).map Prod.fst = l.map Prod.fst := by
  induction l with
  | nil => rfl
  | cons q t ih => simp [hg q, ih]

theorem filter_of_map {α β : Type} (f : α → β) (p : β → Bool) (l : List α) :
    (l.map f).filter p = (l.filter fun a => p (f a)).map f := by
  induction l with
  | nil => rfl
  | cons a t ih =>
      simp only [List.map_cons, List.filter_cons]
      cases h : p (f a) <;> simp [h, ih]

theorem lookupContract_updateContract (s : UserState) (cid : Nat)
    (f : Contract → Contract) :
    lookupContract (updateContract s cid f) cid =
      (lookupContract s cid).map f := by
  unfold lookupContract updateContract
  simp only
  rw [find?_key_map (fun p => if p.1 == cid then (p.1, f p.2) else p)
    (fun p => by cases h : (p.1 == cid) <;> simp [h]) s.contracts cid]
  cases h : s.contracts.find? fun p => p.1 == cid with
  | none => rfl
  | some q =>
      have hq : q.1 = cid := by simpa using List.find?_some h
      simp [hq]

theorem lookupContract_setLogs (s : UserState) (L : List DailyLog)
    (cid : Nat) : lookupContract { s with logs := L } cid =
      lookupContract s cid := rfl

/-! ## Sample documents and states for concrete evaluation -/

/-- A plain active contract with a running streak of 5. -/
def cRun : Contract :=
  { title := "No sugar", behavior := "Avoid all refined sugar",
    pillar := "health", ctype := CType.avoid, status := CStatus.active,
    streak := 5, autoKeep := false, frequencyWeekly := false,
    timesPerWeek := none, weeklyProgress := none, outcome := none,
    failureReason := none, startDate := none, endDate := none,
    lastCheckIn := none, archivedAt := none, resistedCount := 0,
    lastTemptation := none }

/-- A state holding only `cRun` under id 1, with no logs. -/
def sFresh : UserState :=
  { contracts := [(1, cRun)], logs := [], violations := [], journal := [],
    temptations := [] }

/-- A daily log for contract 1 on day 7. -/
def logDay7 : DailyLog :=
  { contractId := 1, date := 7, status := LogStatus.kept, notes := some "",
    source := none, timestamp := 50 }

/-- A state where contract 1 already has a daily log for day 7. -/
def sLogged : UserState :=
  { contracts := [(1, cRun)], logs := [logDay7], violations := [],
    journal := [], temptations := [] }

/-! ## C3: check-in effect -/

/-- C3: for an existing contract, a check-in with any status applies, as
one batch, exactly one new Daily Log for today with that status, a streak
increment exactly when the status is `kept` (unchanged otherwise), and a
refreshed last-check-in timestamp. -/
theorem checkIn_effect (s : UserState) (cid : Nat) (c : Contract)
    (st : LogStatus) (notes : String) (today : Nat) (now : Int)
    (hc : lookupContract s cid = some c) :
    (checkIn s cid st notes today now).logs =
      { contractId := cid, date := today, status := st, notes := some notes,
        source := none, timestamp := now } :: s.logs ∧
    lookupContract (checkIn s cid st notes today now) cid =
      some { c with
        streak := if st = LogStatus.kept then c.streak + 1 else c.streak,
        lastCheckIn := some now } ∧
    (st = LogStatus.kept →
      (if st = LogStatus.kept then c.streak + 1 else c.streak) =
        c.streak + 1) ∧
    (st ≠ LogStatus.kept →
      (if st = LogStatus.kept then c.streak + 1 else c.streak) = c.streak) := by
  simp only [checkIn, hc]
  refine ⟨rfl, ?_, fun h => if_pos h, fun h => if_neg h⟩
  rw [lookupContract_updateContract, lookupContract_setLogs, hc]
  rfl

/-- C3 witness: the spec scenario — streak 5, check-in `kept`, streak
becomes 6 and exactly one `kept` Daily Log for today exists. -/
theorem checkIn_effect_witness :
    lookupContract sFresh 1 = some cRun ∧
    (checkIn sFresh 1 LogStatus.kept "" 7 100).logs =
      [{ contractId := 1, date := 7, status := LogStatus.kept,
         notes := some "", source := none, timestamp := 100 }] ∧
    lookupContract (checkIn sFresh 1 LogStatus.kept "" 7 100) 1 =
      some { cRun with streak := 6, lastCheckIn := some 100 } := by
  have h := checkIn_effect sFresh 1 cRun LogStatus.kept "" 7 100 rfl
  exact ⟨rfl, by simpa [sFresh] using h.1, by simpa using h.2.1⟩

/-! ## C1: no duplicate-log guard in check-in -/

/-- C1 counterexample: with a Daily Log already present for contract 1 on
day 7, a further check-in call is not rejected — it performs writes and
leaves two logs for that contract and date. -/
theorem checkIn_duplicate_cex :
    hasLogFor sLogged 1 7 = true ∧
    checkIn sLogged 1 LogStatus.kept "" 7 100 ≠ sLogged ∧
    ((checkIn sLogged 1 LogStatus.kept "" 7 100).logs.filter fun l =>
      l.date == 7 && l.contractId == 1).length = 2 := by
  refine ⟨by decide, ?_, by decide⟩
  decide

/-- C1 (amended): the check-in operation itself enforces no
"no existing Daily Log for today" precondition — when a log already
exists for that contract and date, a direct call still writes one more
Daily Log; the precondition is enforced only by the client UI, which
stops offering the check-in actions once a log for today exists. -/
theorem checkIn_no_duplicate_guard (s : UserState) (cid : Nat)
    (c : Contract) (st : LogStatus) (notes : String) (now : Int)
    (hc : lookupContract s cid = some c)
    (hlog : hasLogFor s cid (todayDate now) = true) :
    (checkIn s cid st notes (todayDate now) now).logs.length =
      s.logs.length + 1 ∧
    checkInOffered s cid c now = false := by
  constructor
  · simp only [checkIn, hc]
    rfl
  · simp [checkInOffered, hlog]

/-- C1 witness for the amended theorem, at day 7 (`now` is the start of
day 7 in milliseconds). -/
theorem checkIn_no_duplicate_guard_witness :
    lookupContract sLogged 1 = some cRun ∧
    hasLogFor sLogged 1 (todayDate 604800000) = true ∧
    ((checkIn sLogged 1 LogStatus.kept "" (todayDate 604800000)
        604800000).logs.length = sLogged.logs.length + 1 ∧
      checkInOffered sLogged 1 cRun 604800000 = false) :=
  ⟨rfl, by decide,
    checkIn_no_duplicate_guard sLogged 1 cRun LogStatus.kept "" 604800000
      rfl (by decide)⟩

/-! ## C2: violation reporting effect -/

theorem lookupContract_setLogsViolations (s : UserState)
    (L : List DailyLog) (V : List ViolationRecord) (cid : Nat) :
    lookupContract { s with logs := L, violations := V } cid =
      lookupContract s cid := rfl

/-- C2: reporting a violation on an existing contract appends, in one
batch, exactly one Violation Record and exactly one Daily Log for today
with status `broken` and the story as notes, resets the streak to 0 and
refreshes last-check-in regardless of the decision; on `retire` the
contract additionally becomes archived/breached with `failureReason`
the story (falling back to the reason code when the story is empty) and
an archival timestamp. -/
theorem violation_effect (s : UserState) (cid : Nat) (c : Contract)
    (vd : ViolationData) (today : Nat) (now : Int)
    (hc : lookupContract s cid = some c) :
    (reportViolation s cid vd today now).violations =
      { contractId := cid, contractTitle := c.title, reason := vd.reason,
        story := vd.story, decision := vd.decision, timestamp := now }
        :: s.violations ∧
    (reportViolation s cid vd today now).logs =
      { contractId := cid, date := today, status := LogStatus.broken,
        notes := some vd.story, source := none, timestamp := now }
        :: s.logs ∧
    lookupContract (reportViolation s cid vd today now) cid =
      some (violationUpdate vd now c) ∧
    (violationUpdate vd now c).streak = 0 ∧
    (violationUpdate vd now c).lastCheckIn = some now ∧
    (vd.decision = Decision.retire →
      (violationUpdate vd now c).status = CStatus.archived ∧
      (violationUpdate vd now c).outcome = some Outcome.breached ∧
      (violationUpdate vd now c).failureReason =
        some (jsOrStr vd.story vd.reason) ∧
      (violationUpdate vd now c).archivedAt = some now) := by
  simp only [reportViolation, hc]
  refine ⟨rfl, rfl, ?_, ?_, ?_, fun h => ?_⟩
  · rw [lookupContract_updateContract, lookupContract_setLogsViolations, hc]
    rfl
  · cases h : vd.decision <;> simp [violationUpdate, h]
  · cases h : vd.decision <;> simp [violationUpdate, h]
  · simp [violationUpdate, h]

/-- The spec scenario's violation report: decision `retire`,
story "ate cake". -/
def vdCake : ViolationData :=
  { reason := "Impulse", story := "ate cake", decision := Decision.retire }

/-- C2 witness: the spec scenario — contract with streak 5, violation
with decision `retire` and story "ate cake". -/
theorem violation_effect_witness :
    lookupContract sFresh 1 = some cRun ∧
    ((reportViolation sFresh 1 vdCake 7 100).violations =
      { contractId := 1, contractTitle := cRun.title,
        reason := vdCake.reason, story := vdCake.story,
        decision := vdCake.decision, timestamp := 100 }
        :: sFresh.violations ∧
    (reportViolation sFresh 1 vdCake 7 100).logs =
      { contractId := 1, date := 7, status := LogStatus.broken,
        notes := some vdCake.story, source := none, timestamp := 100 }
        :: sFresh.logs ∧
    lookupContract (reportViolation sFresh 1 vdCake 7 100) 1 =
      some (violationUpdate vdCake 100 cRun) ∧
    (violationUpdate vdCake 100 cRun).streak = 0 ∧
    (violationUpdate vdCake 100 cRun).lastCheckIn = some 100 ∧
    (vdCake.decision = Decision.retire →
      (violationUpdate vdCake 100 cRun).status = CStatus.archived ∧
      (violationUpdate vdCake 100 cRun).outcome = some Outcome.breached ∧
      (violationUpdate vdCake 100 cRun).failureReason =
        some (jsOrStr vdCake.story vdCake.reason) ∧
      (violationUpdate vdCake 100 cRun).archivedAt = some 100)) :=
  ⟨rfl, violation_effect sFresh 1 cRun vdCake 7 100 rfl⟩

/-! ## C4, C6, C10: weekly rollover -/

/-- An active weekly-frequency contract: goal 3 per week, 3 completed
this week, streak 2. -/
def cWeek : Contract :=
  { title := "Gym", behavior := "Train at the gym", pillar := "health",
    ctype := CType.do_, status := CStatus.active, streak := 2,
    autoKeep := false, frequencyWeekly := true, timesPerWeek := some 3,
    weeklyProgress := some
      { weekStart := some 7, completedCount := 3, lastCheckInDate := some 12 },
    outcome := none, failureReason := none, startDate := none,
    endDate := none, lastCheckIn := some 50, archivedAt := none,
    resistedCount := 0, lastTemptation := none }

/-- A state holding only `cWeek` under id 1. -/
def sWeek : UserState :=
  { contracts := [(1, cWeek)], logs := [], violations := [], journal := [],
    temptations := [] }

/-- C4: for an active weekly contract with an explicit positive goal and
recorded weekly progress, one rollover run increments the streak iff the
completed count met the goal (resets it to 0 otherwise) and always
resets `weeklyProgress` to a fresh window for the new week. -/
theorem weeklyRollover_effect (c : Contract) (today : Nat) (n : Nat)
    (wp : WeeklyProgress) (hactive : c.status = CStatus.active)
    (hweekly : c.frequencyWeekly = true) (htpw : c.timesPerWeek = some n)
    (hn : 0 < n) (hwp : c.weeklyProgress = some wp) :
    (n ≤ wp.completedCount → (rolloverContract c today).streak = c.streak + 1) ∧
    (wp.completedCount < n → (rolloverContract c today).streak = 0) ∧
    (rolloverContract c today).weeklyProgress =
      some { weekStart := some today, completedCount := 0,
             lastCheckInDate := none } ∧
    ∀ (s : UserState) (cid : Nat), (cid, c) ∈ s.contracts →
      (cid, rolloverContract c today) ∈ (weeklyRolloverRun s today).contracts := by
  have hgoal : rolloverGoal c = n := by
    cases n with
    | zero => omega
    | succ m => simp [rolloverGoal, htpw, jsOrNat]
  have hcomp : rolloverCompleted c = wp.completedCount := by
    cases h : wp.completedCount with
    | zero => simp [rolloverCompleted, hwp, jsOrNat, h]
    | succ m => simp [rolloverCompleted, hwp, jsOrNat, h]
  refine ⟨fun h => ?_, fun h => ?_, by simp [rolloverContract], ?_⟩
  · simp [rolloverContract, hgoal, hcomp, h]
  · simp [rolloverContract, hgoal, hcomp, Nat.not_le.mpr h]
  · intro s cid hmem
    have hw : isWeeklyActive c = true := by
      simp [isWeeklyActive, hactive, hweekly]
    have := List.mem_map_of_mem
      (fun p => if isWeeklyActive p.2 then (p.1, rolloverContract p.2 today)
        else p) hmem
    simpa [weeklyRolloverRun, hw] using this

/-- C4 witness: `cWeek` met its goal (3 of 3), so one rollover at day 14
takes its streak from 2 to 3 and resets the weekly window; the job
applies that transition to it inside `sWeek`. -/
theorem weeklyRollover_effect_witness :
    cWeek.status = CStatus.active ∧ cWeek.timesPerWeek = some 3 ∧
    (rolloverContract cWeek 14).streak = cWeek.streak + 1 ∧
    (rolloverContract cWeek 14).weeklyProgress =
      some { weekStart := some 14, completedCount := 0,
             lastCheckInDate := none } ∧
    (1, rolloverContract cWeek 14) ∈ (weeklyRolloverRun sWeek 14).contracts := by
  have h := weeklyRollover_effect cWeek 14 3
    { weekStart := some 7, completedCount := 3, lastCheckInDate := some 12 }
    rfl rfl rfl (by decide) rfl
  exact ⟨rfl, rfl, h.1 (by decide), h.2.2.1,
    h.2.2.2 sWeek 1 (by simp [sWeek])⟩

/-- C6: the weekly rollover has no date-based reinvocation guard — on
`sWeek` (an active weekly contract that met its goal), a second run in
the same week re-applies the transition: one run leaves streak 3, the
second resets it to 0, so the job is not idempotent. -/
theorem weeklyRollover_not_idempotent :
    (lookupContract (weeklyRolloverRun sWeek 14) 1).map Contract.streak =
      some 3 ∧
    (lookupContract (weeklyRolloverRun (weeklyRolloverRun sWeek 14) 14)
      1).map Contract.streak = some 0 ∧
    weeklyRolloverRun (weeklyRolloverRun sWeek 14) 14 ≠
      weeklyRolloverRun sWeek 14 := by
  refine ⟨by decide, by decide, by decide⟩

/-- An active weekly contract with no goal and no recorded progress. -/
def cWeekBare : Contract :=
  { cWeek with timesPerWeek := none, weeklyProgress := none, streak := 4 }

/-- C10: the rollover evaluates an absent `timesPerWeek` against a
default goal of 3 and an absent `weeklyProgress` as 0 completed;
consequently one run of the job resets the streak of every active
weekly contract with no recorded weekly progress to 0. -/
theorem weeklyRollover_defaults (c : Contract) (today : Nat)
    (hactive : c.status = CStatus.active)
    (hweekly : c.frequencyWeekly = true) :
    (c.timesPerWeek = none → rolloverGoal c = 3) ∧
    (c.weeklyProgress = none → rolloverCompleted c = 0) ∧
    (c.weeklyProgress = none → (rolloverContract c today).streak = 0) ∧
    ∀ (s : UserState) (cid : Nat), (cid, c) ∈ s.contracts →
      c.weeklyProgress = none →
      (cid, rolloverContract c today) ∈ (weeklyRolloverRun s today).contracts := by
  have hstreak : c.weeklyProgress = none → (rolloverContract c today).streak = 0 := by
    intro h
    have hpos : 1 ≤ rolloverGoal c := by
      cases htpw : c.timesPerWeek with
      | none => simp [rolloverGoal, htpw, jsOrNat]
      | some m => cases m <;> simp [rolloverGoal, htpw, jsOrNat]
    have hcomp : rolloverCompleted c = 0 := by
      simp [rolloverCompleted, h, jsOrNat]
    simp [rolloverContract, hcomp, Nat.not_le.mpr hpos]
  refine ⟨fun h => by simp [rolloverGoal, h, jsOrNat], fun h => by
    simp [rolloverCompleted, h, jsOrNat], hstreak, ?_⟩
  intro s cid hmem _
  have hw : isWeeklyActive c = true := by
    simp [isWeeklyActive, hactive, hweekly]
  have := List.mem_map_of_mem
    (fun p => if isWeeklyActive p.2 then (p.1, rolloverContract p.2 today)
      else p) hmem
  simpa [weeklyRolloverRun, hw] using this

/-- C10 witness: `cWeekBare` (no goal, no progress, streak 4) is reset
to streak 0 by one rollover run. -/
theorem weeklyRollover_defaults_witness :
    cWeekBare.status = CStatus.active ∧ cWeekBare.weeklyProgress = none ∧
    rolloverGoal cWeekBare = 3 ∧ rolloverCompleted cWeekBare = 0 ∧
    (rolloverContract cWeekBare 14).streak = 0 := by
  have h := weeklyRollover_defaults cWeekBare 14 rfl rfl
  exact ⟨rfl, rfl, h.1 rfl, h.2.1 rfl, h.2.2.1 rfl⟩

/-! ## C8: claim victory only after the end date -/

/-- The card's `isExpired` test is exactly "today's calendar date is
strictly past the end date": `Math.ceil((end - now) / msPerDay) < 0`
holds iff the current UTC day index exceeds the end day index. -/
theorem expired_iff (d : Nat) (now : Int) (h0 : 0 ≤ now) :
    isExpiredCard (some d) now = true ↔ d < todayDate now := by
  have h1 : isExpiredCard (some d) now =
      decide (ceilDiv ((d : Int) * msPerDay - now) msPerDay < 0) := rfl
  rw [h1, decide_eq_true_eq]
  unfold ceilDiv todayDate msPerDay
  omega

/-- C8: the Claim Victory action is offered only when the contract's
end date has passed (current date strictly past `endDate`); a contract
with no `endDate` is never offered it; and the complete handler then
archives the contract with outcome `completed` and an archival
timestamp. -/
theorem complete_victory_gate (c : Contract) (now : Int) (h0 : 0 ≤ now) :
    (claimVictoryOffered c now = true →
      ∃ d, c.endDate = some d ∧ d < todayDate now) ∧
    (c.endDate = none → claimVictoryOffered c now = false) ∧
    ∀ (s : UserState) (cid : Nat) (c0 : Contract),
      lookupContract s cid = some c0 →
      lookupContract (completeContract s cid now) cid =
        some { c0 with status := CStatus.archived,
                       outcome := some Outcome.completed,
                       archivedAt := some now } := by
  refine ⟨?_, ?_, ?_⟩
  · intro h
    cases hend : c.endDate with
    | none => simp [claimVictoryOffered, isExpiredCard, getDaysRemaining,
        hend] at h
    | some d =>
        have hx : isExpiredCard (some d) now = true := by
          simp only [claimVictoryOffered, hend, Bool.and_eq_true] at h
          exact h.2
        exact ⟨d, rfl, (expired_iff d now h0).mp hx⟩
  · intro hend
    simp [claimVictoryOffered, isExpiredCard, getDaysRemaining, hend]
  · intro s cid c0 hc
    unfold completeContract
    rw [lookupContract_updateContract, hc]
    rfl

/-- `cRun` with an end date of day 5, already past on day 7. -/
def cEnded : Contract := { cRun with endDate := some 5 }

/-- A state holding only `cEnded` under id 1. -/
def sEnded : UserState :=
  { contracts := [(1, cEnded)], logs := [], violations := [], journal := [],
    temptations := [] }

/-- C8 witness: at the start of day 7, `cEnded` (end date day 5) is
offered Claim Victory, and completing archives it as `completed`. -/
theorem complete_victory_gate_witness :
    (0 : Int) ≤ 604800000 ∧
    claimVictoryOffered cEnded 604800000 = true ∧
    ((claimVictoryOffered cEnded 604800000 = true →
      ∃ d, cEnded.endDate = some d ∧ d < todayDate 604800000) ∧
    (cEnded.endDate = none → claimVictoryOffered cEnded 604800000 = false) ∧
    ∀ (s : UserState) (cid : Nat) (c0 : Contract),
      lookupContract s cid = some c0 →
      lookupContract (completeContract s cid 604800000) cid =
        some { c0 with status := CStatus.archived,
                       outcome := some Outcome.completed,
                       archivedAt := some 604800000 }) :=
  ⟨by decide, by decide, complete_victory_gate cEnded 604800000 (by decide)⟩

/-! ## C5: daily auto-keep -/

theorem filter_swap {α : Type} (p q : α → Bool) (l : List α) :
    (l.filter p).filter q = (l.filter q).filter p := by
  induction l with
  | nil => rfl
  | cons a t ih =>
      cases hp : p a <;> cases hq : q a <;>
        simp [List.filter_cons, hp, hq, ih]

theorem autoKeepUpdate_fst (s : UserState) (y : Nat) (now : Int)
    (p : Nat × Contract) : (autoKeepUpdate s y now p).1 = p.1 := by
  unfold autoKeepUpdate
  cases h : autoKeepEligible p.2 && !hasLogFor s p.1 y <;> simp [h]

theorem logsFilter_nil (s : UserState) (cid y : Nat)
    (h : hasLogFor s cid y = false) :
    s.logs.filter (fun l => l.date == y && l.contractId == cid) = [] := by
  refine List.filter_eq_nil_iff.mpr fun l hl hp => ?_
  have ht : s.logs.any (fun l => l.date == y && l.contractId == cid) = true :=
    List.any_eq_true.mpr ⟨l, hl, hp⟩
  unfold hasLogFor at h
  rw [ht] at h
  cases h

theorem targets_key (s : UserState) (cid : Nat) (c : Contract) (y : Nat)
    (hnd : (s.contracts.map Prod.fst).Nodup) (hmem : (cid, c) ∈ s.contracts)
    (helig : autoKeepEligible c = true)
    (hnolog : hasLogFor s cid y = false) :
    (autoKeepTargets s y).filter (fun p => p.1 == cid) = [(cid, c)] := by
  unfold autoKeepTargets
  rw [filter_swap, filter_key_of_nodup hnd hmem,
    List.filter_cons_of_pos (by simp [helig, hnolog])]
  rfl

theorem filter_map_autoLog (l : List (Nat × Contract)) (cid y : Nat)
    (now : Int) :
    ((l.map fun p => autoLog p.1 y now).filter fun x =>
        x.date == y && x.contractId == cid) =
      (l.filter fun p => p.1 == cid).map fun p => autoLog p.1 y now := by
  induction l with
  | nil => rfl
  | cons a t ih =>
      simp only [autoLog] at ih
      cases h : (a.1 == cid) <;>
        simp [List.map_cons, List.filter_cons, autoLog, h, ih]

theorem filter_map_autoJournal (l : List (Nat × Contract)) (cid : Nat)
    (now : Int) :
    ((l.map fun p => autoJournalEntry p.1 now).filter fun j =>
        j.contractId == cid && j.jtype == "auto") =
      (l.filter fun p => p.1 == cid).map fun p => autoJournalEntry p.1 now := by
  induction l with
  | nil => rfl
  | cons a t ih =>
      simp only [autoJournalEntry] at ih
      cases h : (a.1 == cid) <;>
        simp [List.map_cons, List.filter_cons, autoJournalEntry, h, ih]

theorem lookup_autoKeepRun (s : UserState) (cid : Nat) (c : Contract)
    (y : Nat) (now : Int) (hnd : (s.contracts.map Prod.fst).Nodup)
    (hmem : (cid, c) ∈ s.contracts) :
    lookupContract (dailyAutoKeepRun s y now) cid =
      some (autoKeepUpdate s y now (cid, c)).2 := by
  unfold dailyAutoKeepRun lookupContract
  simp only
  rw [find?_key_map (autoKeepUpdate s y now) (autoKeepUpdate_fst s y now),
    find?_key_of_nodup hnd hmem]
  rfl

/-- C5: for an active AVOID auto-keep contract with no Daily Log for
yesterday, one run of the job leaves exactly one Daily Log for
(contract, yesterday) — `kept`, `source = auto` — increments the streak
by 1 and appends exactly one auto-type Journal Entry; and a second run
of the job for the same day is a no-op for that contract: still exactly
that one log, and the contract document unchanged. -/
theorem dailyAutoKeep_effect (s : UserState) (cid : Nat) (c : Contract)
    (y : Nat) (now : Int)
    (hnd : (s.contracts.map Prod.fst).Nodup)
    (hmem : (cid, c) ∈ s.contracts)
    (helig : autoKeepEligible c = true)
    (hnolog : hasLogFor s cid y = false) :
    ((dailyAutoKeepRun s y now).logs.filter fun l =>
        l.date == y && l.contractId == cid) = [autoLog cid y now] ∧
    lookupContract (dailyAutoKeepRun s y now) cid =
      some { c with streak := c.streak + 1, lastCheckIn := some now } ∧
    ((dailyAutoKeepRun s y now).journal.filter fun j =>
        j.contractId == cid && j.jtype == "auto").length =
      (s.journal.filter fun j =>
        j.contractId == cid && j.jtype == "auto").length + 1 ∧
    ((dailyAutoKeepRun (dailyAutoKeepRun s y now) y now).logs.filter fun l =>
        l.date == y && l.contractId == cid) = [autoLog cid y now] ∧
    lookupContract (dailyAutoKeepRun (dailyAutoKeepRun s y now) y now) cid =
      lookupContract (dailyAutoKeepRun s y now) cid := by
  have hcond : (autoKeepEligible c && !hasLogFor s cid y) = true := by
    simp [helig, hnolog]
  have h1 : ((dailyAutoKeepRun s y now).logs.filter fun l =>
      l.date == y && l.contractId == cid) = [autoLog cid y now] := by
    show ((((autoKeepTargets s y).map fun p => autoLog p.1 y now)
      ++ s.logs).filter fun l => l.date == y && l.contractId == cid) = _
    rw [List.filter_append, filter_map_autoLog,
      targets_key s cid c y hnd hmem helig hnolog,
      logsFilter_nil s cid y hnolog]
    rfl
  have h2 : lookupContract (dailyAutoKeepRun s y now) cid =
      some { c with streak := c.streak + 1, lastCheckIn := some now } := by
    rw [lookup_autoKeepRun s cid c y now hnd hmem]
    simp [autoKeepUpdate, hcond]
  have h3 : ((dailyAutoKeepRun s y now).journal.filter fun j =>
      j.contractId == cid && j.jtype == "auto").length =
      (s.journal.filter fun j =>
        j.contractId == cid && j.jtype == "auto").length + 1 := by
    show ((((autoKeepTargets s y).map fun p => autoJournalEntry p.1 now)
      ++ s.journal).filter fun j =>
        j.contractId == cid && j.jtype == "auto").length = _
    rw [List.filter_append, filter_map_autoJournal,
      targets_key s cid c y hnd hmem helig hnolog]
    simp [Nat.add_comm]
  have hnd1 : ((dailyAutoKeepRun s y now).contracts.map Prod.fst).Nodup := by
    show ((s.contracts.map (autoKeepUpdate s y now)).map Prod.fst).Nodup
    rw [map_fst_keyed (autoKeepUpdate s y now) (autoKeepUpdate_fst s y now)]
    exact hnd
  have hmem1 : (cid, { c with
      streak := c.streak + 1,
      lastCheckIn := some now }) ∈ (dailyAutoKeepRun s y now).contracts := by
    show _ ∈ s.contracts.map (autoKeepUpdate s y now)
    have hm := List.mem_map_of_mem (autoKeepUpdate s y now) hmem
    simpa [autoKeepUpdate, hcond] using hm
  have hlog1 : hasLogFor (dailyAutoKeepRun s y now) cid y = true := by
    unfold hasLogFor
    refine List.any_eq_true.mpr ⟨autoLog cid y now, ?_, by simp [autoLog]⟩
    show autoLog cid y now ∈
      ((autoKeepTargets s y).map fun p => autoLog p.1 y now) ++ s.logs
    refine List.mem_append.mpr (Or.inl ?_)
    have htm : (cid, c) ∈ autoKeepTargets s y :=
      List.mem_filter.mpr ⟨hmem, hcond⟩
    exact List.mem_map_of_mem (fun p => autoLog p.1 y now) htm
  have hempty : (autoKeepTargets (dailyAutoKeepRun s y now) y).filter
      (fun p => p.1 == cid) = [] := by
    unfold autoKeepTargets
    rw [filter_swap, filter_key_of_nodup hnd1 hmem1,
      List.filter_cons_of_neg (by simp [hlog1])]
    rfl
  have h4 : ((dailyAutoKeepRun (dailyAutoKeepRun s y now) y now).logs.filter
      fun l => l.date == y && l.contractId == cid) = [autoLog cid y now] := by
    show ((((autoKeepTargets (dailyAutoKeepRun s y now) y).map fun p =>
      autoLog p.1 y now) ++ (dailyAutoKeepRun s y now).logs).filter fun l =>
        l.date == y && l.contractId == cid) = _
    rw [List.filter_append, filter_map_autoLog, hempty, h1]
    rfl
  have h5 : lookupContract
      (dailyAutoKeepRun (dailyAutoKeepRun s y now) y now) cid =
      lookupContract (dailyAutoKeepRun s y now) cid := by
    rw [lookup_autoKeepRun (dailyAutoKeepRun s y now) cid
      { c with streak := c.streak + 1, lastCheckIn := some now } y now
      hnd1 hmem1, h2]
    simp [autoKeepUpdate, hlog1]
  exact ⟨h1, h2, h3, h4, h5⟩

/-- `cRun` opted into auto-keep (active, AVOID type). -/
def cAuto : Contract := { cRun with autoKeep := true }

/-- A state holding only `cAuto` under id 1, with no logs. -/
def sAuto : UserState :=
  { contracts := [(1, cAuto)], logs := [], violations := [], journal := [],
    temptations := [] }

/-- C5 witness: `cAuto` with no log for day 6 — one run writes exactly
one auto log and increments the streak; a second run changes nothing
for that contract. -/
theorem dailyAutoKeep_effect_witness :
    autoKeepEligible cAuto = true ∧ hasLogFor sAuto 1 6 = false ∧
    (((dailyAutoKeepRun sAuto 6 100).logs.filter fun l =>
        l.date == 6 && l.contractId == 1) = [autoLog 1 6 100] ∧
    lookupContract (dailyAutoKeepRun sAuto 6 100) 1 =
      some { cAuto with
        streak := cAuto.streak + 1,
        lastCheckIn := some 100 } ∧
    ((dailyAutoKeepRun sAuto 6 100).journal.filter fun j =>
        j.contractId == 1 && j.jtype == "auto").length =
      (sAuto.journal.filter fun j =>
        j.contractId == 1 && j.jtype == "auto").length + 1 ∧
    ((dailyAutoKeepRun (dailyAutoKeepRun sAuto 6 100) 6 100).logs.filter
      fun l => l.date == 6 && l.contractId == 1) = [autoLog 1 6 100] ∧
    lookupContract (dailyAutoKeepRun (dailyAutoKeepRun sAuto 6 100) 6 100) 1 =
      lookupContract (dailyAutoKeepRun sAuto 6 100) 1) :=
  ⟨by decide, by decide,
    dailyAutoKeep_effect sAuto 1 cAuto 6 100 (by decide) (by decide)
      (by decide) (by decide)⟩

/-! ## C7: the archived/outcome/failureReason invariant -/

/-- The invariant of C7 on one contract document: `outcome` is set iff
the contract is archived, and the outcome is `breached` iff
`failureReason` is set. -/
def ContractInv (c : Contract) : Prop :=
  (c.outcome.isSome = true ↔ c.status = CStatus.archived) ∧
  (c.outcome = some Outcome.breached ↔ c.failureReason.isSome = true)

/-- The invariant over every contract of a user's subtree. -/
def StateInv (s : UserState) : Prop :=
  ∀ p ∈ s.contracts, ContractInv p.2

instance (c : Contract) : Decidable (ContractInv c) := by
  unfold ContractInv
  infer_instance

instance (s : UserState) : Decidable (StateInv s) := by
  unfold StateInv
  infer_instance

/-- The lifecycle operations as dispatched by the system: check-in on
any contract the client knows, violation reporting and claim-victory
only on contracts the dashboard offers them for (status `active`), plus
the two scheduled settlement jobs. -/
inductive LifecycleStep : UserState → UserState → Prop where
  | create (s : UserState) (id : Nat) (c : Contract) :
      LifecycleStep s (createContract s id c)
  | checkin (s : UserState) (cid : Nat) (st : LogStatus) (notes : String)
      (today : Nat) (now : Int) :
      LifecycleStep s (checkIn s cid st notes today now)
  | violation (s : UserState) (cid : Nat) (vd : ViolationData) (today : Nat)
      (now : Int)
      (hactive : ∀ p ∈ s.contracts, p.1 = cid →
        p.2.status = CStatus.active) :
      LifecycleStep s (reportViolation s cid vd today now)
  | complete (s : UserState) (cid : Nat) (now : Int)
      (hactive : ∀ p ∈ s.contracts, p.1 = cid →
        p.2.status = CStatus.active) :
      LifecycleStep s (completeContract s cid now)
  | rollover (s : UserState) (today : Nat) :
      LifecycleStep s (weeklyRolloverRun s today)
  | autokeep (s : UserState) (yesterday : Nat) (now : Int) :
      LifecycleStep s (dailyAutoKeepRun s yesterday now)

theorem contractInv_congr {c c' : Contract} (ho : c'.outcome = c.outcome)
    (hs : c'.status = c.status) (hf : c'.failureReason = c.failureReason)
    (hI : ContractInv c) : ContractInv c' := by
  unfold ContractInv at hI ⊢
  rw [ho, hs, hf]
  exact hI

theorem contractInv_outcome_none {c : Contract} (hI : ContractInv c)
    (hact : c.status = CStatus.active) : c.outcome = none := by
  cases hoc : c.outcome with
  | none => rfl
  | some o =>
      have := hI.1.mp (by simp [hoc])
      rw [hact] at this
      cases this

theorem contractInv_failureReason_none {c : Contract} (hI : ContractInv c)
    (hact : c.status = CStatus.active) : c.failureReason = none := by
  have ho := contractInv_outcome_none hI hact
  cases hfc : c.failureReason with
  | none => rfl
  | some f =>
      have := hI.2.mpr (by simp [hfc])
      rw [ho] at this
      cases this

theorem violationUpdate_inv (vd : ViolationData) (now : Int) (c : Contract)
    (hI : ContractInv c) (hact : c.status = CStatus.active) :
    ContractInv (violationUpdate vd now c) := by
  have ho := contractInv_outcome_none hI hact
  have hf := contractInv_failureReason_none hI hact
  unfold violationUpdate
  cases vd.decision <;> simp [ContractInv, ho, hf, hact]

theorem stateInv_preserved (s s' : UserState) (hs : StateInv s)
    (hstep : LifecycleStep s s') : StateInv s' := by
  cases hstep with
  | create id c =>
      intro p hp
      rcases List.mem_cons.mp hp with rfl | hp'
      · simp [ContractInv]
      · exact hs p hp'
  | checkin cid st notes today now =>
      cases hc : lookupContract s cid with
      | none =>
          simp only [checkIn, hc]
          exact hs
      | some c =>
          simp only [checkIn, hc]
          intro p hp
          simp only [updateContract] at hp
          rcases List.mem_map.mp hp with ⟨q, hq, rfl⟩
          cases hk : (q.1 == cid) with
          | false =>
              rw [if_neg (by simp)]
              exact hs q hq
          | true =>
              rw [if_pos rfl]
              exact contractInv_congr rfl rfl rfl (hs q hq)
  | violation cid vd today now hactive =>
      cases hc : lookupContract s cid with
      | none =>
          simp only [reportViolation, hc]
          exact hs
      | some c =>
          simp only [reportViolation, hc]
          intro p hp
          simp only [updateContract] at hp
          rcases List.mem_map.mp hp with ⟨q, hq, rfl⟩
          cases hk : (q.1 == cid) with
          | false =>
              rw [if_neg (by simp)]
              exact hs q hq
          | true =>
              rw [if_pos rfl]
              exact violationUpdate_inv vd now q.2 (hs q hq)
                (hactive q hq (by simpa using hk))
  | complete cid now hactive =>
      intro p hp
      simp only [completeContract, updateContract] at hp
      rcases List.mem_map.mp hp with ⟨q, hq, rfl⟩
      cases hk : (q.1 == cid) with
      | false =>
          rw [if_neg (by simp)]
          exact hs q hq
      | true =>
          rw [if_pos rfl]
          have hf := contractInv_failureReason_none (hs q hq)
            (hactive q hq (by simpa using hk))
          simp [ContractInv, hf]
  | rollover today =>
      intro p hp
      simp only [weeklyRolloverRun] at hp
      rcases List.mem_map.mp hp with ⟨q, hq, rfl⟩
      cases hk : isWeeklyActive q.2 with
      | false =>
          rw [if_neg (by simp)]
          exact hs q hq
      | true =>
          rw [if_pos rfl]
          exact contractInv_congr rfl rfl rfl (hs q hq)
  | autokeep yesterday now =>
      intro p hp
      simp only [dailyAutoKeepRun] at hp
      rcases List.mem_map.mp hp with ⟨q, hq, rfl⟩
      unfold autoKeepUpdate
      cases hk : autoKeepEligible q.2 && !hasLogFor s q.1 yesterday with
      | false =>
          rw [if_neg (by simp)]
          exact hs q hq
      | true =>
          rw [if_pos rfl]
          exact contractInv_congr rfl rfl rfl (hs q hq)

/-- C7: the invariant "outcome is set iff archived, and breached iff
failureReason is set" holds of every contract after every sequence of
lifecycle operations from any state satisfying it. -/
theorem lifecycle_invariant (s s' : UserState) (hs : StateInv s)
    (hsteps : Relation.ReflTransGen LifecycleStep s s') : StateInv s' := by
  induction hsteps with
  | refl => exact hs
  | tail hab hbc ih => exact stateInv_preserved _ _ ih hbc

/-- The empty subtree of a brand-new user. -/
def sEmpty : UserState :=
  { contracts := [], logs := [], violations := [], journal := [],
    temptations := [] }

/-- C7 witness: from the empty state, create a contract and retire it
through a violation — the invariant still holds of the result. -/
theorem lifecycle_invariant_witness :
    StateInv sEmpty ∧
    StateInv (reportViolation (createContract sEmpty 1 cRun) 1 vdCake 7 100) :=
  ⟨by decide,
    lifecycle_invariant sEmpty
      (reportViolation (createContract sEmpty 1 cRun) 1 vdCake 7 100)
      (by decide)
      (Relation.ReflTransGen.tail
        (Relation.ReflTransGen.single (LifecycleStep.create sEmpty 1 cRun))
        (LifecycleStep.violation (createContract sEmpty 1 cRun) 1 vdCake 7
          100 (by decide)))⟩

/-! ## C9: temptation outcome lifecycle -/

theorem find?_map_pred {α : Type} (u : α → α) (pred : α → Bool)
    (hu : ∀ a, pred (u a) = pred a) (l : List α) :
    (l.map u).find? pred = (l.find? pred).map u := by
  induction l with
  | nil => rfl
  | cons a t ih =>
      simp only [List.map_cons, List.find?, hu a]
      cases h : pred a <;> simp [h, ih]

theorem findTemptation_updateContract (s : UserState) (cid cid' tid : Nat)
    (f : Contract → Contract) :
    findTemptation (updateContract s cid' f) cid tid =
      findTemptation s cid tid := rfl

/-- A pending temptation record under contract 1. -/
def tPending : Temptation :=
  { contractId := 1, tid := 1, context := some "party",
    aiResponse := "Hold the line.", outcome := "pending", createdAt := 10,
    resolvedAt := none }

/-- A state with contract 1 and one pending temptation. -/
def sTempt : UserState :=
  { contracts := [(1, cRun)], logs := [], violations := [], journal := [],
    temptations := [tPending] }

/-- `sTempt` after `markTemptationOutcome(resisted)`: the temptation is
resolved and the contract's `resistedCount` is incremented. -/
def sTemptR : UserState :=
  { contracts := [(1, { cRun with resistedCount := 1 })], logs := [],
    violations := [], journal := [],
    temptations := [{ tPending with
      outcome := "resisted", resolvedAt := some 20 }] }

/-- C9 counterexample: after a first `markTemptationOutcome` resolved
the record to `resisted`, a second call on the very same record is not
rejected — it succeeds and overwrites the outcome with `relapsed`. -/
theorem temptation_second_mutation_cex :
    markTemptationOutcome sTempt 1 1 "resisted" 20 = Except.ok sTemptR ∧
    (findTemptation sTemptR 1 1).map Temptation.outcome = some "resisted" ∧
    markTemptationOutcome sTemptR 1 1 "relapsed" 30 =
      Except.ok { sTemptR with temptations := [{ tPending with
        outcome := "relapsed", resolvedAt := some 30 }] } :=
  ⟨rfl, rfl, rfl⟩

/-- C9 (amended): every Temptation Record is created with outcome
`pending`, and `markTemptationOutcome` transitions it to `resisted` or
`relapsed` (rejecting any other outcome value); but the "mutated
exactly once" discipline is not enforced — the call never inspects the
record's current outcome, so a repeated call on an already-resolved
record succeeds and overwrites the outcome instead of being
rejected. -/
theorem temptation_outcome_lifecycle (s s' : UserState) (cid tid : Nat)
    (ctx : Option String) (txt : String) (now later : Int)
    (outcome : String) (t : Temptation) :
    (coachTemptation s cid tid ctx txt now = some s' →
      (findTemptation s' cid tid).map Temptation.outcome = some "pending") ∧
    (findTemptation s cid tid = some t →
      (outcome = "resisted" ∨ outcome = "relapsed") →
      ∃ s2, markTemptationOutcome s cid tid outcome later = Except.ok s2 ∧
        (findTemptation s2 cid tid).map Temptation.outcome = some outcome) ∧
    (¬(outcome = "resisted" ∨ outcome = "relapsed") →
      markTemptationOutcome s cid tid outcome later =
        Except.error "invalid-argument") := by
  refine ⟨?_, ?_, ?_⟩
  · intro h
    cases hc : lookupContract s cid with
    | none => simp [coachTemptation, hc] at h
    | some c0 =>
        simp only [coachTemptation, hc, Option.some.injEq] at h
        subst h
        simp [findTemptation, updateContract, List.find?]
  · intro hf hv
    simp only [markTemptationOutcome, if_pos hv, hf]
    refine ⟨_, rfl, ?_⟩
    have hu : ∀ a : Temptation,
        ((fun t => t.contractId == cid && t.tid == tid)
          (if a.contractId == cid && a.tid == tid then
            { a with outcome := outcome, resolvedAt := some later }
          else a)) =
        ((fun t => t.contractId == cid && t.tid == tid) a) := by
      intro a
      cases h : (a.contractId == cid && a.tid == tid) <;> simp [h]
    have hft : s.temptations.find?
        (fun t => t.contractId == cid && t.tid == tid) = some t := hf
    have hpt := List.find?_some hft
    have h1 : findTemptation { s with
        temptations := s.temptations.map fun t =>
          if t.contractId == cid && t.tid == tid then
            { t with outcome := outcome, resolvedAt := some later }
          else t } cid tid =
        some { t with outcome := outcome, resolvedAt := some later } := by
      unfold findTemptation
      rw [find?_map_pred _ _ hu, hft, Option.map_some', if_pos hpt]
    by_cases ho : outcome = "resisted"
    · rw [if_pos ho, findTemptation_updateContract, h1]
      rfl
    · rw [if_neg ho, h1]
      rfl
  · intro h
    simp [markTemptationOutcome, h]

/-- `sFresh` after `coachTemptation` with context "party": one pending
temptation and a stamped `lastTemptation`. -/
def sCoached : UserState :=
  { contracts := [(1, { cRun with lastTemptation := some 10 })], logs := [],
    violations := [], journal := [],
    temptations := [tPending] }

/-- C9 witness: coaching creates a pending record; a valid follow-up
outcome call succeeds and sets the outcome. -/
theorem temptation_outcome_lifecycle_witness :
    coachTemptation sFresh 1 1 (some "party") "Hold the line." 10 =
      some sCoached ∧
    findTemptation sTempt 1 1 = some tPending ∧
    ("resisted" = "resisted" ∨ ("resisted" : String) = "relapsed") ∧
    (findTemptation sCoached 1 1).map Temptation.outcome = some "pending" ∧
    (∃ s2, markTemptationOutcome sTempt 1 1 "resisted" 20 = Except.ok s2 ∧
      (findTemptation s2 1 1).map Temptation.outcome = some "resisted") :=
  ⟨by decide, rfl, Or.inl rfl,
    (temptation_outcome_lifecycle sFresh sCoached 1 1 (some "party")
      "Hold the line." 10 20 "resisted" tPending).1 (by decide),
    (temptation_outcome_lifecycle sTempt sTempt 1 1 (some "party")
      "Hold the line." 10 20 "resisted" tPending).2.1 rfl (Or.inl rfl)⟩

end Laosfactos
